import Mathlib

/-!
Verification of the name/type resolution core of the libadalang Ada
front-end DSL (`ada/language/ast.py`).

The development shallowly embeds the data and the equation-building,
parameter-matching and resolution-driver logic of the source file.  Pure
langkit properties become Lean functions; the stateful resolution driver
becomes explicit state passing over logic-variable bindings.  Components
that live in the langkit runtime rather than in this repository (the
lexical-environment store, entity/rebinding application and the
constraint solver) are modelled from the specification and are marked as
such in their doc comments.
-/

namespace Libadalang

/-! ## Logic variables and equation syntax

`LogicVarType` fields in the source give every expression node a type
variable (`type_var`) and names a reference variable (`ref_var`).
Node identity is modelled by a natural number. -/

/-- A logic variable: the `type_var` or the `ref_var` of the node with the
given identity. -/
inductive LVar where
  | typeVar (nid : Nat)
  | refVar (nid : Nat)
deriving DecidableEq, Repr

/-- Syntax of the equations built by the `xref_equation` properties.
Mirrors the langkit vocabulary: `LogicTrue`, `Bind` of a variable to an
entity value (`bindV`), `Bind` of a variable to another variable
(`bindVV`, carrying the optional `eq_prop` identifier), `Predicate`, and
the `&` / `|` combinators.  `err` models a `PropertyError` raised while
the equation is being built (e.g. a field access on a null struct).
Entity and type values are identities (`Option Nat`, `none` being the
null entity). -/
inductive Equation where
  | ltrue
  | lfalse
  | bindV (v : LVar) (val : Option Nat)
  | bindVV (v w : LVar) (eqPropId : Option Nat)
  | pred (propId : Nat) (v : LVar)
  | err
  | and (a b : Equation)
  | or (a b : Equation)
deriving DecidableEq, Repr

/-- The source's `logic_any` over an array of equations (a disjunction; empty arrays
yield the absurd equation). -/
def logicAny : List Equation → Equation
  | [] => .lfalse
  | [e] => e
  | e :: es => .or e (logicAny es)

/-- The source's `logic_all` over an array of equations (a conjunction; empty arrays
yield the trivially true equation). -/
def logicAll : List Equation → Equation
  | [] => .ltrue
  | [e] => e
  | e :: es => .and e (logicAll es)

/-- The disjunctive branches of an equation: flattens `or` nodes and
drops absurd branches. -/
def orBranches : Equation → List Equation
  | .or a b => orBranches a ++ orBranches b
  | .lfalse => []
  | e => [e]

/-- The conjuncts of an equation: flattens `and` nodes and drops
trivially true conjuncts. -/
def conjunctsOf : Equation → List Equation
  | .and a b => conjunctsOf a ++ conjunctsOf b
  | .ltrue => []
  | e => [e]

/-! ## Names

`SingleTokNode`/`BaseId` nodes carry a symbol.  `Identifier`,
`StringLiteral` and `CharLiteral` are the concrete `BaseId` kinds; every
other `Name` kind (dotted names, call expressions, ...) is collapsed
into `other`, which is all `Name.matches` distinguishes. -/

/-- A `Name` node: its node identity plus, for `BaseId` kinds, its
symbol. -/
inductive NameE where
  | ident (nid : Nat) (sym : String)
  | strLit (nid : Nat) (sym : String)
  | charLit (nid : Nat) (sym : String)
  | other (nid : Nat)
deriving DecidableEq, Repr

/-- The node identity of a name. -/
def NameE.nid : NameE → Nat
  | .ident n _ => n
  | .strLit n _ => n
  | .charLit n _ => n
  | .other n => n

/-- Whether the node is a `BaseId` (used by `AssocList.unpacked_params`
to filter designators). -/
def NameE.isBaseId : NameE → Bool
  | .ident _ _ => true
  | .strLit _ _ => true
  | .charLit _ _ => true
  | .other _ => false

/-- The source's `Name.matches`: compares the symbol when both nodes are
`Identifier`s or both are `StringLiteral`s, and yields false for every
other combination of node kinds. -/
def nameMatches : NameE → NameE → Bool
  | .ident _ s1, n =>
    match n with
    | .ident _ s2 => s1 == s2
    | _ => false
  | .strLit _ s1, n =>
    match n with
    | .strLit _ s2 => s1 == s2
    | _ => false
  | _, _ => false

/-! ## Formal parameters

`BaseFormalParamDecl` covers both subprogram parameter specifications
(`ParamSpec`, whose `is_mandatory` is `default.is_null`) and record
components (`ComponentDecl`).  `type_expression.designated_type` and
its canonical type are modelled as opaque type identities. -/

/-- A `BaseFormalParamDecl`: its identifiers, its own entity identity,
whether a default expression is present, and the designated (and
canonical designated) type of its type expression. -/
structure BaseFormalParamDeclE where
  ids : List NameE
  specId : Nat
  hasDefault : Bool
  typeDesignatedId : Option Nat
  typeCanonicalId : Option Nat
deriving DecidableEq, Repr

/-- The source's `ParamSpec.is_mandatory`: the parameter has no default
expression. -/
def BaseFormalParamDeclE.isMandatory (p : BaseFormalParamDeclE) : Bool :=
  !p.hasDefault

/-- The source's `SingleFormal`: one (identifier, param spec) couple. -/
structure SingleFormal where
  name : NameE
  spec : BaseFormalParamDeclE
deriving DecidableEq, Repr

/-- The source's `BaseFormalParamHolder.unpacked_formal_params`: couples
(identifier, param spec) for all parameters. -/
def unpackedFormalParams (specs : List BaseFormalParamDeclE) :
    List SingleFormal :=
  specs.flatMap (fun sp => sp.ids.map (fun i => ⟨i, sp⟩))

/-- The source's `BaseSubpSpec.nb_min_params`: number of mandatory (defaultless)
unpacked formals. -/
def nbMinParams (specs : List BaseFormalParamDeclE) : Nat :=
  ((unpackedFormalParams specs).filter (fun p => p.spec.isMandatory)).length

/-- The source's `BaseSubpSpec.nb_max_params`: number of all unpacked formals. -/
def nbMaxParams (specs : List BaseFormalParamDeclE) : Nat :=
  (unpackedFormalParams specs).length

/-! ## Actual parameters -/

/-- A `ParamAssoc`: an optional designator and the association's
expression (identified by its node). -/
structure ParamAssocE where
  designator : Option NameE
  exprId : Nat
deriving DecidableEq, Repr

/-- A `SingleActual`: one unpacked actual. -/
structure SingleActual where
  name : Option NameE
  exprId : Nat
deriving DecidableEq, Repr

/-- The source's `AssocList.unpacked_params`: a designator-less association yields
one positional actual; otherwise one actual per `BaseId` designator
(non-`BaseId` designators are dropped). -/
def unpackedParams (assocs : List ParamAssocE) : List SingleActual :=
  assocs.flatMap (fun pa =>
    match pa.designator with
    | none => [⟨none, pa.exprId⟩]
    | some d => if d.isBaseId then [⟨some d, pa.exprId⟩] else [])

/-- A `ParamMatch` with `has_matched` true; the null `ParamMatch`
struct (produced when no formal is found) is `none` in the result of
`matchParamList`. -/
structure ParamMatch where
  formal : SingleFormal
  actual : SingleActual
deriving DecidableEq, Repr

/-- The source's `BaseFormalParamHolder.match_param_list`: for each unpacked actual,
the matching formal, found by position (shifted by one for dot-notation
subprograms) for positional actuals and by designator-name lookup for
named actuals. -/
def matchParamList (holder : List BaseFormalParamDeclE)
    (params : List ParamAssocE) (isDottableSubp : Bool) :
    List (Option ParamMatch) :=
  let unpackedFormals := unpackedFormalParams holder
  (unpackedParams params).enum.map (fun ia =>
    match ia.2.name with
    | none =>
      let idx := if isDottableSubp then ia.1 + 1 else ia.1
      (unpackedFormals.get? idx).map (fun sp => ⟨sp, ia.2⟩)
    | some nm =>
      (unpackedFormals.find? (fun p => nameMatches p.name nm)).map
        (fun sp => ⟨sp, ia.2⟩))

/-- The source's `BaseSubpSpec.is_matching_param_list`: the argument count and the
designators match.  The parameter counts are integers (for dot-notation
subprograms both bounds are decremented). -/
def isMatchingParamList (holder : List BaseFormalParamDeclE)
    (params : List ParamAssocE) (isDottableSubp : Bool) : Bool :=
  let matchList := matchParamList holder params isDottableSubp
  let nbMax : Int :=
    if isDottableSubp then (nbMaxParams holder : Int) - 1
    else (nbMaxParams holder : Int)
  let nbMin : Int :=
    if isDottableSubp then (nbMinParams holder : Int) - 1
    else (nbMinParams holder : Int)
  decide ((params.length : Int) ≤ nbMax) &&
  matchList.all (fun m => m.isSome) &&
  decide (((matchList.filter (fun m =>
    match m with
    | some pm => pm.formal.spec.isMandatory
    | none => false)).length : Int) = nbMin)

/-! ## Binary operator equations (`BinOp.xref_equation`) -/

/-- The logic-variable layout of a `BinOp` node: the node itself, its
`left` and `right` operands, and its `op` (whose `ref_var` is a
`UserField` on the `Op` node). -/
structure BinOpE where
  selfId : Nat
  leftId : Nat
  rightId : Nat
  opId : Nat
deriving DecidableEq, Repr

/-- One visible operator subprogram from `Op.subprograms` (a
`BasicSubpDecl` found in the node environment under the operator's
symbol): its entity identity, its specification's parameter
declarations, and the designated type of its `returns` type
expression. -/
structure SubpOverload where
  subpId : Nat
  paramSpecs : List BaseFormalParamDeclE
  returnTypeId : Option Nat
deriving DecidableEq, Repr

/-- One `logic_any` branch of `BinOp.xref_equation`: the overload's
first formal type constrains the left operand, its second formal type
the right operand, its return type the node, and the operator
references the overload.  (`spec.type` is
`type_expression.designated_type.canonical_type`.) -/
def binOpOverloadBranch (b : BinOpE) (subp : SubpOverload) : Equation :=
  let ps := unpackedFormalParams subp.paramSpecs
  .and (.and (.and
    (.bindV (.typeVar b.leftId)
      ((ps.get? 0).bind (fun f => f.spec.typeCanonicalId)))
    (.bindV (.typeVar b.rightId)
      ((ps.get? 1).bind (fun f => f.spec.typeCanonicalId))))
    (.bindV (.typeVar b.selfId) subp.returnTypeId))
    (.bindV (.refVar b.opId) (some subp.subpId))

/-- The source's `BinOp.no_overload_equation`: the built-in fallback equating the
node's type with both operand types. -/
def binOpNoOverloadEquation (b : BinOpE) : Equation :=
  .and (.bindVV (.typeVar b.selfId) (.typeVar b.leftId) none)
       (.bindVV (.typeVar b.selfId) (.typeVar b.rightId) none)

/-- The source's `RelationOp.no_overload_equation`: the operand types are equated
and the node's type is `Boolean`. -/
def relationOpNoOverloadEquation (b : BinOpE) (boolTypeId : Option Nat) :
    Equation :=
  .and (.bindVV (.typeVar b.leftId) (.typeVar b.rightId) none)
       (.bindV (.typeVar b.selfId) boolTypeId)

/-- The source's `BinOp.xref_equation`: the operands' sub-equations conjoined with a
disjunction over the visible overloads plus the (virtual)
`no_overload_equation` fallback. -/
def binOpXrefEquation (b : BinOpE) (subps : List SubpOverload)
    (leftSub rightSub fallback : Equation) : Equation :=
  .and (.and leftSub rightSub)
       (.or (logicAny (subps.map (binOpOverloadBranch b))) fallback)

/-! ## Concrete subprogram specifications -/

/-- Two mandatory (defaultless) formals `A` and `B`. -/
def twoMandatoryFormals : List BaseFormalParamDeclE :=
  [⟨[.ident 1 "A"], 10, false, some 100, some 100⟩,
   ⟨[.ident 2 "B"], 11, false, some 101, some 101⟩]

/-- Two actual associations, both with the explicit designator `A`. -/
def duplicateDesignatorActuals : List ParamAssocE :=
  [⟨some (.ident 3 "A"), 20⟩, ⟨some (.ident 4 "A"), 21⟩]

/-- A mandatory formal `A` plus an optional formal `B` (which has a
default expression). -/
def mandatoryPlusOptionalFormals : List BaseFormalParamDeclE :=
  [⟨[.ident 1 "A"], 10, false, some 100, some 100⟩,
   ⟨[.ident 2 "B"], 11, true, some 101, some 101⟩]

/-- A single positional actual. -/
def onePositionalActual : List ParamAssocE := [⟨none, 20⟩]

/-! ## The node-class hierarchy and `xref_entry_point`

Every class of the syntax-tree DSL, in source order.  Enum-node classes
(`Tagged`, `Mode`, `Op`, ...) and generated list classes (`AssocList`,
`DeclList`, ...) derive from the root node type in the generated
library; they are recorded with `AdaNode` as their base. -/

inductive ClassName where
  | AdaNode | BasicDecl | Body | BodyStub | DiscriminantSpec
  | DiscriminantPart | KnownDiscriminantPart | UnknownDiscriminantPart
  | TypeDef | Variant | VariantPart | BaseFormalParamDecl | ComponentDecl
  | BaseFormalParamHolder | ComponentList | BaseRecordDef | RecordDef
  | NullRecordDef | Tagged | Abstract | Limited | Private | Aliased
  | NotNull | Constant | All | Abort | Reverse | WithPrivate | Until
  | Synchronized | Protected | RecordTypeDef | RealTypeDef | BaseTypeDecl
  | ClasswideTypeDecl | TypeDecl | AnonymousTypeDecl | EnumTypeDecl
  | FloatingPointDef | OrdinaryFixedPointDef | DecimalFixedPointDef
  | BaseAssoc | Constraint | RangeConstraint | DigitsConstraint
  | DeltaConstraint | IndexConstraint | DiscriminantConstraint
  | DiscriminantAssoc | DerivedTypeDef | PrivateTypeDef | SignedIntTypeDef
  | ModIntTypeDef | ArrayIndices | UnconstrainedArrayIndices
  | ConstrainedArrayIndices | ComponentDef | ArrayTypeDef | InterfaceKind
  | InterfaceTypeDef | SubtypeDecl | TaskDef | ProtectedDef | TaskTypeDecl
  | SingleTaskTypeDecl | ProtectedTypeDecl | AccessDef | AccessToSubpDef
  | TypeAccessDef | FormalDiscreteTypeDef | NullComponentDecl | WithClause
  | UseClause | UsePackageClause | UseTypeClause | TypeExpr | AnonymousType
  | SubtypeIndication | ConstrainedSubtypeIndication
  | DiscreteSubtypeIndication | Mode | ParamSpec | AspectSpec | Overriding
  | BasicSubpDecl | ClassicSubpDecl | SubpDecl | NullSubpDecl
  | AbstractSubpDecl | ExprFunction | SubpRenamingDecl | Pragma
  | PragmaArgumentAssoc | AspectClause | EnumRepClause | AttributeDefClause
  | ComponentClause | RecordRepClause | AtClause | SingleTaskDecl
  | SingleProtectedDecl | AspectAssoc | NumberDecl | ObjectDecl
  | ExtendedReturnStmtObjectDecl | DeclarativePart | PrivatePart
  | PublicPart | BasePackageDecl | PackageDecl | ExceptionDecl
  | GenericInstantiation | EnvHolder | GenericSubpInstantiation
  | GenericPackageInstantiation | RenamingClause | PackageRenamingDecl
  | GenericRenamingDecl | GenericPackageRenamingDecl | SubpKind
  | GenericSubpRenamingDecl | FormalSubpDecl | ConcreteFormalSubpDecl
  | AbstractFormalSubpDecl | GenericFormalPart | GenericFormal
  | GenericFormalObjDecl | GenericFormalTypeDecl | GenericFormalSubpDecl
  | GenericFormalPackage | GenericSubpInternal | GenericDecl
  | GenericSubpDecl | GenericPackageInternal | GenericPackageDecl | Expr
  | ContractCaseAssoc | ContractCases | ParenExpr | Op | UnOp | BinOp
  | RelationOp | MembershipExpr | BaseAggregate | Aggregate
  | NullRecordAggregate | Name | CallExpr | BasicAssoc | ParamAssoc
  | AggregateAssoc | MultiDimArrayAssoc | AssocList | DeclList | StmtList
  | ExplicitDeref | BoxExpr | OthersDesignator | IfExpr | ElsifExprPart
  | CaseExpr | CaseExprAlternative | SingleTokNode | BaseId | Identifier
  | StringLiteral | EnumLiteralDecl | CharLiteral | NumLiteral
  | RealLiteral | IntLiteral | NullLiteral | BaseSubpSpec | SubpSpec
  | EntryDecl | Quantifier | IterType | LoopSpec | ForLoopVarDecl
  | ForLoopSpec | QuantifiedExpr | Allocator | QualExpr | AttributeRef
  | UpdateAttributeRef | RaiseExpr | DottedName | CompilationUnit
  | SubpBody | HandledStmts | ExceptionHandler | Stmt | SimpleStmt
  | CompositeStmt | CallStmt | NullStmt | AssignStmt | GotoStmt | ExitStmt
  | ReturnStmt | RequeueStmt | AbortStmt | DelayStmt | RaiseStmt | IfStmt
  | ElsifStmtPart | LabelDecl | Label | WhileLoopSpec | NamedStmtDecl
  | NamedStmt | BaseLoopStmt | LoopStmt | ForLoopStmt | WhileLoopStmt
  | BlockStmt | DeclBlock | BeginBlock | ExtendedReturnStmt | CaseStmt
  | CaseStmtAlternative | AcceptStmt | AcceptStmtWithStmts | SelectStmt
  | SelectWhenPart | TerminateAlternative | PackageBody | TaskBody
  | ProtectedBody | EntryBody | EntryIndexSpec | Subunit
  | ProtectedBodyStub | SubpBodyStub | PackageBodyStub | TaskBodyStub
  | LibraryItem | RangeSpec | IncompleteTypeDecl | IncompleteTaggedTypeDecl
  | Params | ParentList | DiscriminantChoiceList | AlternativesList
  | ConstraintList | UnconstrainedArrayIndex
deriving DecidableEq, Repr

/-- The declared base class of each class (`AdaNode` is the root). -/
def superclass : ClassName → Option ClassName
  | .AdaNode => none
  | .BasicDecl => some .AdaNode
  | .Body => some .BasicDecl
  | .BodyStub => some .Body
  | .DiscriminantSpec => some .BasicDecl
  | .DiscriminantPart => some .AdaNode
  | .KnownDiscriminantPart => some .DiscriminantPart
  | .UnknownDiscriminantPart => some .DiscriminantPart
  | .TypeDef => some .AdaNode
  | .Variant => some .AdaNode
  | .VariantPart => some .AdaNode
  | .BaseFormalParamDecl => some .BasicDecl
  | .ComponentDecl => some .BaseFormalParamDecl
  | .BaseFormalParamHolder => some .AdaNode
  | .ComponentList => some .BaseFormalParamHolder
  | .BaseRecordDef => some .AdaNode
  | .RecordDef => some .BaseRecordDef
  | .NullRecordDef => some .BaseRecordDef
  | .Tagged => some .AdaNode
  | .Abstract => some .AdaNode
  | .Limited => some .AdaNode
  | .Private => some .AdaNode
  | .Aliased => some .AdaNode
  | .NotNull => some .AdaNode
  | .Constant => some .AdaNode
  | .All => some .AdaNode
  | .Abort => some .AdaNode
  | .Reverse => some .AdaNode
  | .WithPrivate => some .AdaNode
  | .Until => some .AdaNode
  | .Synchronized => some .AdaNode
  | .Protected => some .AdaNode
  | .RecordTypeDef => some .TypeDef
  | .RealTypeDef => some .TypeDef
  | .BaseTypeDecl => some .BasicDecl
  | .ClasswideTypeDecl => some .BaseTypeDecl
  | .TypeDecl => some .BaseTypeDecl
  | .AnonymousTypeDecl => some .TypeDecl
  | .EnumTypeDecl => some .BaseTypeDecl
  | .FloatingPointDef => some .RealTypeDef
  | .OrdinaryFixedPointDef => some .RealTypeDef
  | .DecimalFixedPointDef => some .RealTypeDef
  | .BaseAssoc => some .AdaNode
  | .Constraint => some .AdaNode
  | .RangeConstraint => some .Constraint
  | .DigitsConstraint => some .Constraint
  | .DeltaConstraint => some .Constraint
  | .IndexConstraint => some .Constraint
  | .DiscriminantConstraint => some .Constraint
  | .DiscriminantAssoc => some .Constraint
  | .DerivedTypeDef => some .TypeDef
  | .PrivateTypeDef => some .TypeDef
  | .SignedIntTypeDef => some .TypeDef
  | .ModIntTypeDef => some .TypeDef
  | .ArrayIndices => some .AdaNode
  | .UnconstrainedArrayIndices => some .ArrayIndices
  | .ConstrainedArrayIndices => some .ArrayIndices
  | .ComponentDef => some .AdaNode
  | .ArrayTypeDef => some .TypeDef
  | .InterfaceKind => some .AdaNode
  | .InterfaceTypeDef => some .TypeDef
  | .SubtypeDecl => some .BaseTypeDecl
  | .TaskDef => some .AdaNode
  | .ProtectedDef => some .AdaNode
  | .TaskTypeDecl => some .BaseTypeDecl
  | .SingleTaskTypeDecl => some .TaskTypeDecl
  | .ProtectedTypeDecl => some .BasicDecl
  | .AccessDef => some .TypeDef
  | .AccessToSubpDef => some .AccessDef
  | .TypeAccessDef => some .AccessDef
  | .FormalDiscreteTypeDef => some .TypeDef
  | .NullComponentDecl => some .AdaNode
  | .WithClause => some .AdaNode
  | .UseClause => some .AdaNode
  | .UsePackageClause => some .UseClause
  | .UseTypeClause => some .UseClause
  | .TypeExpr => some .AdaNode
  | .AnonymousType => some .TypeExpr
  | .SubtypeIndication => some .TypeExpr
  | .ConstrainedSubtypeIndication => some .SubtypeIndication
  | .DiscreteSubtypeIndication => some .SubtypeIndication
  | .Mode => some .AdaNode
  | .ParamSpec => some .BaseFormalParamDecl
  | .AspectSpec => some .AdaNode
  | .Overriding => some .AdaNode
  | .BasicSubpDecl => some .BasicDecl
  | .ClassicSubpDecl => some .BasicSubpDecl
  | .SubpDecl => some .ClassicSubpDecl
  | .NullSubpDecl => some .ClassicSubpDecl
  | .AbstractSubpDecl => some .ClassicSubpDecl
  | .ExprFunction => some .ClassicSubpDecl
  | .SubpRenamingDecl => some .ClassicSubpDecl
  | .Pragma => some .AdaNode
  | .PragmaArgumentAssoc => some .BaseAssoc
  | .AspectClause => some .AdaNode
  | .EnumRepClause => some .AspectClause
  | .AttributeDefClause => some .AspectClause
  | .ComponentClause => some .AdaNode
  | .RecordRepClause => some .AspectClause
  | .AtClause => some .AspectClause
  | .SingleTaskDecl => some .BasicDecl
  | .SingleProtectedDecl => some .BasicDecl
  | .AspectAssoc => some .AdaNode
  | .NumberDecl => some .BasicDecl
  | .ObjectDecl => some .BasicDecl
  | .ExtendedReturnStmtObjectDecl => some .ObjectDecl
  | .DeclarativePart => some .AdaNode
  | .PrivatePart => some .DeclarativePart
  | .PublicPart => some .DeclarativePart
  | .BasePackageDecl => some .BasicDecl
  | .PackageDecl => some .BasePackageDecl
  | .ExceptionDecl => some .BasicDecl
  | .GenericInstantiation => some .BasicDecl
  | .EnvHolder => some .AdaNode
  | .GenericSubpInstantiation => some .GenericInstantiation
  | .GenericPackageInstantiation => some .GenericInstantiation
  | .RenamingClause => some .AdaNode
  | .PackageRenamingDecl => some .BasicDecl
  | .GenericRenamingDecl => some .BasicDecl
  | .GenericPackageRenamingDecl => some .GenericRenamingDecl
  | .SubpKind => some .AdaNode
  | .GenericSubpRenamingDecl => some .GenericRenamingDecl
  | .FormalSubpDecl => some .ClassicSubpDecl
  | .ConcreteFormalSubpDecl => some .FormalSubpDecl
  | .AbstractFormalSubpDecl => some .FormalSubpDecl
  | .GenericFormalPart => some .BaseFormalParamHolder
  | .GenericFormal => some .BaseFormalParamDecl
  | .GenericFormalObjDecl => some .GenericFormal
  | .GenericFormalTypeDecl => some .GenericFormal
  | .GenericFormalSubpDecl => some .GenericFormal
  | .GenericFormalPackage => some .GenericFormal
  | .GenericSubpInternal => some .BasicSubpDecl
  | .GenericDecl => some .BasicDecl
  | .GenericSubpDecl => some .GenericDecl
  | .GenericPackageInternal => some .BasePackageDecl
  | .GenericPackageDecl => some .GenericDecl
  | .Expr => some .AdaNode
  | .ContractCaseAssoc => some .BaseAssoc
  | .ContractCases => some .Expr
  | .ParenExpr => some .Expr
  | .Op => some .AdaNode
  | .UnOp => some .Expr
  | .BinOp => some .Expr
  | .RelationOp => some .BinOp
  | .MembershipExpr => some .Expr
  | .BaseAggregate => some .Expr
  | .Aggregate => some .BaseAggregate
  | .NullRecordAggregate => some .BaseAggregate
  | .Name => some .Expr
  | .CallExpr => some .Name
  | .BasicAssoc => some .AdaNode
  | .ParamAssoc => some .BasicAssoc
  | .AggregateAssoc => some .BasicAssoc
  | .MultiDimArrayAssoc => some .AggregateAssoc
  | .AssocList => some .AdaNode
  | .DeclList => some .AdaNode
  | .StmtList => some .AdaNode
  | .ExplicitDeref => some .Name
  | .BoxExpr => some .Expr
  | .OthersDesignator => some .AdaNode
  | .IfExpr => some .Expr
  | .ElsifExprPart => some .AdaNode
  | .CaseExpr => some .Expr
  | .CaseExprAlternative => some .Expr
  | .SingleTokNode => some .Name
  | .BaseId => some .SingleTokNode
  | .Identifier => some .BaseId
  | .StringLiteral => some .BaseId
  | .EnumLiteralDecl => some .BasicDecl
  | .CharLiteral => some .BaseId
  | .NumLiteral => some .SingleTokNode
  | .RealLiteral => some .NumLiteral
  | .IntLiteral => some .NumLiteral
  | .NullLiteral => some .SingleTokNode
  | .BaseSubpSpec => some .BaseFormalParamHolder
  | .SubpSpec => some .BaseSubpSpec
  | .EntryDecl => some .BasicDecl
  | .Quantifier => some .AdaNode
  | .IterType => some .AdaNode
  | .LoopSpec => some .AdaNode
  | .ForLoopVarDecl => some .BasicDecl
  | .ForLoopSpec => some .LoopSpec
  | .QuantifiedExpr => some .Expr
  | .Allocator => some .Expr
  | .QualExpr => some .Name
  | .AttributeRef => some .Name
  | .UpdateAttributeRef => some .AttributeRef
  | .RaiseExpr => some .Expr
  | .DottedName => some .Name
  | .CompilationUnit => some .AdaNode
  | .SubpBody => some .Body
  | .HandledStmts => some .AdaNode
  | .ExceptionHandler => some .AdaNode
  | .Stmt => some .AdaNode
  | .SimpleStmt => some .Stmt
  | .CompositeStmt => some .Stmt
  | .CallStmt => some .SimpleStmt
  | .NullStmt => some .SimpleStmt
  | .AssignStmt => some .SimpleStmt
  | .GotoStmt => some .SimpleStmt
  | .ExitStmt => some .SimpleStmt
  | .ReturnStmt => some .SimpleStmt
  | .RequeueStmt => some .SimpleStmt
  | .AbortStmt => some .SimpleStmt
  | .DelayStmt => some .SimpleStmt
  | .RaiseStmt => some .SimpleStmt
  | .IfStmt => some .CompositeStmt
  | .ElsifStmtPart => some .AdaNode
  | .LabelDecl => some .BasicDecl
  | .Label => some .SimpleStmt
  | .WhileLoopSpec => some .LoopSpec
  | .NamedStmtDecl => some .BasicDecl
  | .NamedStmt => some .CompositeStmt
  | .BaseLoopStmt => some .CompositeStmt
  | .LoopStmt => some .BaseLoopStmt
  | .ForLoopStmt => some .BaseLoopStmt
  | .WhileLoopStmt => some .BaseLoopStmt
  | .BlockStmt => some .CompositeStmt
  | .DeclBlock => some .BlockStmt
  | .BeginBlock => some .BlockStmt
  | .ExtendedReturnStmt => some .CompositeStmt
  | .CaseStmt => some .CompositeStmt
  | .CaseStmtAlternative => some .AdaNode
  | .AcceptStmt => some .CompositeStmt
  | .AcceptStmtWithStmts => some .AcceptStmt
  | .SelectStmt => some .CompositeStmt
  | .SelectWhenPart => some .AdaNode
  | .TerminateAlternative => some .SimpleStmt
  | .PackageBody => some .Body
  | .TaskBody => some .Body
  | .ProtectedBody => some .Body
  | .EntryBody => some .Body
  | .EntryIndexSpec => some .AdaNode
  | .Subunit => some .AdaNode
  | .ProtectedBodyStub => some .BodyStub
  | .SubpBodyStub => some .BodyStub
  | .PackageBodyStub => some .BodyStub
  | .TaskBodyStub => some .BodyStub
  | .LibraryItem => some .AdaNode
  | .RangeSpec => some .AdaNode
  | .IncompleteTypeDecl => some .BaseTypeDecl
  | .IncompleteTaggedTypeDecl => some .IncompleteTypeDecl
  | .Params => some .AdaNode
  | .ParentList => some .AdaNode
  | .DiscriminantChoiceList => some .AdaNode
  | .AlternativesList => some .AdaNode
  | .ConstraintList => some .AdaNode
  | .UnconstrainedArrayIndex => some .AdaNode

/-- The classes that define the `xref_entry_point` property themselves:
`AdaNode` defines the `False` default, and `TypeDecl`, `ObjectDecl` and
`Stmt` each define it as `True`. -/
def xrefEntryPointOwn : ClassName → Option Bool
  | .AdaNode => some false
  | .TypeDecl => some true
  | .ObjectDecl => some true
  | .Stmt => some true
  | _ => none

/-- Walk up the superclass chain to the nearest definition of
`xref_entry_point` (fuel bounds the chain length, which is at most 7 in
the hierarchy above). -/
def xrefEntryPointAux : Nat → ClassName → Bool
  | 0, _ => false
  | fuel + 1, c =>
    match xrefEntryPointOwn c with
    | some b => b
    | none =>
      match superclass c with
      | some p => xrefEntryPointAux fuel p
      | none => false

/-- The source's `xref_entry_point` of a node of the given class. -/
def xrefEntryPoint (c : ClassName) : Bool := xrefEntryPointAux 16 c

/-- Reflexive-transitive subclass test. -/
def inheritsFromAux : Nat → ClassName → ClassName → Bool
  | 0, _, _ => false
  | fuel + 1, c, p =>
    decide (c = p) ||
      match superclass c with
      | some q => inheritsFromAux fuel q p
      | none => false

/-- Whether `c` is `p` or a (transitive) subclass of `p`. -/
def inheritsFrom (c p : ClassName) : Bool := inheritsFromAux 16 c p

/-- The fields of an `ObjectDecl` relevant to initialization: whether a
`default_expr` is present. -/
structure ObjectDeclFields where
  hasDefaultExpr : Bool
deriving DecidableEq, Repr

/-- The source's `ObjectDecl.xref_entry_point` is the constant `True`, independent of
the declaration's fields (in particular of whether a `default_expr` is
present). -/
def objectDeclXrefEntryPoint (_ : ObjectDeclFields) : Bool := true

/-- An object declaration is initialized when it has a default
expression. -/
def ObjectDeclFields.isInitialized (o : ObjectDeclFields) : Bool :=
  o.hasDefaultExpr

/-! ## Aggregate equations (`Aggregate.xref_equation`) -/

/-- An `ArrayTypeDef`, reduced to its component type (`comp_type`). -/
structure ArrayTypeDefE where
  compTypeId : Option Nat
deriving DecidableEq, Repr

/-- The parts of the aggregate's resolved type (`Self.type_val`) that
`Aggregate.xref_equation` consults: its `array_def` (null for record
types) and, for record types, the `record_def.comps` component list. -/
structure AggregateTypeVal where
  arrayDef : Option ArrayTypeDefE
  recordComps : List BaseFormalParamDeclE
deriving DecidableEq, Repr

/-- The source's `Aggregate.xref_stop_resolution` is `True`: the aggregate stops the
enclosing resolution and is solved in a later step, once its own type
variable has been bound top-down. -/
def aggregateXrefStopResolution : Bool := true

/-- The source's `AdaNode.sub_equation`: `LogicTrue` when the node stops resolution,
otherwise the node's own `xref_equation`. -/
def subEquation (stopResolution : Bool) (xrefEq : Equation) : Equation :=
  if stopResolution then .ltrue else xrefEq

/-- One `logic_all` conjunct of the record-shaped aggregate equation:
binds the association expression's type to the matched component's
designated type, conjoins the expression's sub-equation, and, for named
associations, binds the designator's reference to the component.  A
null `ParamMatch` (unmatched association) makes the construction access
fields of a null struct (`err`). -/
def aggregateRecordBranch (subEq : Nat → Equation) :
    Option ParamMatch → Equation
  | some pm =>
    .and (.and
      (.bindV (.typeVar pm.actual.exprId) pm.formal.spec.typeDesignatedId)
      (subEq pm.actual.exprId))
      (match pm.actual.name with
       | none => .ltrue
       | some nm => .bindV (.refVar nm.nid) (some pm.formal.spec.specId))
  | none => .err

/-- One `logic_all` conjunct of the array-shaped aggregate equation:
the association expression's sub-equation plus a bind of its type to
the array's component type. -/
def aggregateArrayBranch (subEq : Nat → Equation) (compTypeId : Option Nat)
    (assoc : ParamAssocE) : Equation :=
  .and (subEq assoc.exprId) (.bindV (.typeVar assoc.exprId) compTypeId)

/-- The source's `Aggregate.xref_equation`: built from the already-bound `type_val`
`td`; when `td.array_def` is null the associations are matched like
call arguments against the record components, else every association is
constrained by the array's component type. -/
def aggregateXrefEquation (td : AggregateTypeVal)
    (assocs : List ParamAssocE) (subEq : Nat → Equation) : Equation :=
  match td.arrayDef with
  | none =>
    logicAll ((matchParamList td.recordComps assocs false).map
      (aggregateRecordBranch subEq))
  | some atd =>
    logicAll (assocs.map (aggregateArrayBranch subEq atd.compTypeId))

/-! ## The resolution driver (`resolve_names`) -/

/-- Logic-variable bindings (`none` = unbound). -/
abbrev Bindings := LVar → Option Nat

/-- A bindings delta: an override list applied to a state, the leftmost
entry for a variable winning. -/
def applyDelta (d : List (LVar × Option Nat)) (s : Bindings) : Bindings :=
  fun v =>
    match d.find? (fun p => decide (p.1 = v)) with
    | some p => p.2
    | none => s v

/-- The logic variables occurring in an equation (the variables a solve
of that equation resets). -/
def equationVars : Equation → List LVar
  | .bindV v _ => [v]
  | .bindVV v w _ => [v, w]
  | .pred _ v => [v]
  | .and a b => equationVars a ++ equationVars b
  | .or a b => equationVars a ++ equationVars b
  | _ => []

/-- Modelled from the spec: the constraint solver lives in the langkit
runtime, not in this repository.  Per the spec it is deterministic — it
commits to the first consistent `Any` branch in a fixed reproducible
order — so it is modelled as an arbitrary pure function `solve` from an
equation to an optional solution, and each per-node solve first resets
the equation's own logic variables ("per-entry-point resolution
allocates or resets its own logic variables") and then writes the
solution.  A null equation solves to false with no writes (the source
computes `Self.xref_equation._.solve`). -/
def solveDelta (solve : Equation → Option (List (LVar × Nat)))
    (e : Option Equation) : Bool × List (LVar × Option Nat) :=
  match e with
  | none => (false, [])
  | some eq =>
    match solve eq with
    | some ws =>
      (true, ws.map (fun p => (p.1, some p.2))
        ++ (equationVars eq).map (fun v => (v, (none : Option Nat))))
    | none =>
      (false, (equationVars eq).map (fun v => (v, (none : Option Nat))))

mutual
/-- A syntax-tree node as the resolution driver sees it: its identity,
its `xref_stop_resolution` flag, its `xref_equation` (null when the
node has none) and its children. -/
inductive NodeTree where
  | node (nid : Nat) (stopResolution : Bool) (xrefEq : Option Equation)
      (children : NodeForest)
/-- The children of a node. -/
inductive NodeForest where
  | nil
  | cons (head : NodeTree) (tail : NodeForest)
end

mutual
/-- The source's `AdaNode.resolve_names_internal`: solve the node's own equation when
`initial` or `xref_stop_resolution` holds, then recurse into all
children with `initial = False`, conjoining the boolean results. -/
def resolveNamesInternal (solve : Equation → Option (List (LVar × Nat))) :
    NodeTree → Bool → Bindings → Bool × Bindings
  | .node _ stop e children, initial, s =>
    let i := if initial || stop then solveDelta solve e else (true, [])
    let j := resolveNamesChildren solve children (applyDelta i.2 s)
    (i.1 && j.1, j.2)

/-- The source's `Self.children.all (... resolve_names_internal False ...)`,
threading the bindings left to right. -/
def resolveNamesChildren
    (solve : Equation → Option (List (LVar × Nat))) :
    NodeForest → Bindings → Bool × Bindings
  | .nil, s => (true, s)
  | .cons t ts, s =>
    let r := resolveNamesInternal solve t false s
    let rs := resolveNamesChildren solve ts r.2
    (r.1 && rs.1, rs.2)
end

/-- The source's `AdaNode.resolve_names`: resolve from an entry point
(`initial = True`). -/
def resolveNames (solve : Equation → Option (List (LVar × Nat)))
    (t : NodeTree) (s : Bindings) : Bool × Bindings :=
  resolveNamesInternal solve t true s

/-! ## Entities, metadata and rebindings

Entity values, metadata combination and rebinding application live in
the langkit runtime, not in this repository; they are modelled from the
spec: an entity is a (node, metadata, rebinding-chain) triple, a
rebinding an immutable (source environment, target environment) pair
created per generic instantiation, and lookup through a rebound
environment appends the rebinding to each found entity's chain. -/

/-- The `Metadata` struct of the source: the `dottable_subp` and
`implicit_deref` boolean tags. -/
structure MetadataE where
  dottableSubp : Bool
  implicitDeref : Bool
deriving DecidableEq, Repr

/-- Modelled from the spec: a rebinding — an immutable
(source environment, target environment) pair; environments are
identified by number. -/
structure Rebinding where
  sourceEnvId : Nat
  targetEnvId : Nat
deriving DecidableEq, Repr

/-- Modelled from the spec: an entity — (node, metadata,
rebinding-chain); two entities are equal only if all three components
match. -/
structure Entity where
  node : Nat
  md : MetadataE
  rebindings : List Rebinding
deriving DecidableEq, Repr

/-- Modelled from the spec: lookup under a symbol in an environment
rebound by `rebind_env(source, target)` — the entities stored under the
symbol, each with the rebinding appended to its chain. -/
def rebindEnvGet (entries : List (String × Entity)) (src tgt : Nat)
    (s : String) : List Entity :=
  (entries.filterMap (fun p => if p.1 = s then some p.2 else none)).map
    (fun ent => { ent with rebindings := ent.rebindings ++ [⟨src, tgt⟩] })

/-- A generic package declaration as
`GenericPackageInstantiation.defining_env` consults it: the entries of
its internal package's environment (`p.decl.children_env`) and the
environment of its formal part (`p.children_env`). -/
structure GenericPackageDeclE where
  declEntries : List (String × Entity)
  formalEnvId : Nat
deriving DecidableEq, Repr

/-- A generic package instantiation, reduced to the environment held by
its `instantiation_env_holder` (populated from its actuals). -/
structure GenericPackageInstantiationE where
  instEnvId : Nat
deriving DecidableEq, Repr

/-- The source's `GenericPackageInstantiation.defining_env`, as the lookup it
induces:
`p.decl.children_env.rebind_env(formal_env, instantiation_env_holder.children_env)`. -/
def definingEnvGet (g : GenericPackageDeclE)
    (inst : GenericPackageInstantiationE) (s : String) : List Entity :=
  rebindEnvGet g.declEntries g.formalEnvId inst.instEnvId s

/-- A generic package exporting one formal-type-dependent declaration
`Elem` (underlying node 42), with formal-part environment 3. -/
def genElemDecl : GenericPackageDeclE :=
  ⟨[("Elem", ⟨42, ⟨false, false⟩, []⟩)], 3⟩

/-- The `Elem` entity as seen through an instantiation whose
environment is 5. -/
def entElem5 : Entity := ⟨42, ⟨false, false⟩, [⟨3, 5⟩]⟩

/-- The `Elem` entity as seen through an instantiation whose
environment is 6. -/
def entElem6 : Entity := ⟨42, ⟨false, false⟩, [⟨3, 6⟩]⟩

/-! ## The environment store

The `create`/`add`/`get` operations and the recursive lookup walk live
in the langkit runtime, not in this repository; they are modelled from
the spec: an environment is a symbol→entity multimap preserving
insertion order, a nullable parent link and an ordered list of
referenced environments; `get` collects at each level the directly
stored entities first, then the referenced environments' entities in
descriptor order, walks to the parent when `recursive`, and
deduplicates by entity equality keeping innermost-scope results
first. -/

/-- Modelled from the spec: an environment. -/
inductive LexicalEnv where
  | mk (entries : List (String × Entity)) (parent : Option LexicalEnv)
      (referenced : List LexicalEnv)

/-- The symbol→entity associations stored directly at the
environment. -/
def LexicalEnv.entries : LexicalEnv → List (String × Entity)
  | .mk es _ _ => es

/-- The entities stored directly at the environment under a symbol, in
insertion order. -/
def envOwnGet (e : LexicalEnv) (s : String) : List Entity :=
  e.entries.filterMap (fun p => if p.1 = s then some p.2 else none)

/-- Keep-first deduplication by entity equality (innermost results come
first and are kept). -/
def pruneDupsAux : List Entity → List Entity → List Entity
  | [], _ => []
  | e :: es, seen =>
    if e ∈ seen then pruneDupsAux es seen
    else e :: pruneDupsAux es (e :: seen)

/-- Deduplicate a lookup result. -/
def pruneDups (l : List Entity) : List Entity := pruneDupsAux l []

/-- Modelled from the spec: `get(env, symbol, recursive)`.  The
referenced environments contribute their directly stored entities after
the environment's own, and the parent chain is walked only when
`recursive`. -/
def envGet : LexicalEnv → String → Bool → List Entity
  | .mk es parent refs, s, recursive =>
    let own := es.filterMap (fun p => if p.1 = s then some p.2 else none)
    if recursive then
      pruneDups (own
        ++ refs.flatMap (fun r => envOwnGet r s)
        ++ (match parent with
            | some p => envGet p s true
            | none => []))
    else own

/-- Modelled from the spec: `add(env, symbol, entity)` appends, so that
insertion order equals call order. -/
def addToEnv (e : LexicalEnv) (sym : String) (ent : Entity) : LexicalEnv :=
  match e with
  | .mk es parent refs => .mk (es ++ [(sym, ent)]) parent refs

/-- The environment obtained by a sequence of `add`s on an empty
environment with the given parent and referenced environments. -/
def envOfAdds (adds : List (String × Entity)) (parent : Option LexicalEnv)
    (refs : List LexicalEnv) : LexicalEnv :=
  adds.foldl (fun e p => addToEnv e p.1 p.2) (.mk [] parent refs)

/-- The source's `AdaNode.std`: the `Standard` package, found by a non-recursive
lookup on the root's node environment (a recursive lookup here would
recurse infinitely, since referenced-envs resolution evaluates it). -/
def std (rootNodeEnv : LexicalEnv) : Option Entity :=
  (envGet rootNodeEnv "Standard" false).get? 0

/-! ## Type derivation (`BaseTypeDecl.is_derived_type`) -/

/-- A type declaration: a full declaration (with its synthesized
classwide node when tagged, its base type when derived, and its
accessed type when an access type), or a subtype declaration with its
designated type. -/
inductive TDecl where
  | decl (nid : Nat) (classwideId : Option Nat) (base : Option TDecl)
      (accessed : Option TDecl)
  | subtypeDecl (nid : Nat) (designated : TDecl)

mutual
/-- Entity equality on type declarations (structural: same declaration
reached the same way). -/
def TDecl.beq : TDecl → TDecl → Bool
  | .decl n1 c1 b1 a1, .decl n2 c2 b2 a2 =>
    n1 == n2 && c1 == c2 && TDecl.obeq b1 b2 && TDecl.obeq a1 a2
  | .subtypeDecl n1 d1, .subtypeDecl n2 d2 => n1 == n2 && TDecl.beq d1 d2
  | _, _ => false

/-- Equality on optional type declarations (null equals only null). -/
def TDecl.obeq : Option TDecl → Option TDecl → Bool
  | none, none => true
  | some x, some y => TDecl.beq x y
  | _, _ => false
end

/-- The source's `classwide_type`: non-null only when the type is tagged (subtype
declarations are not). -/
def TDecl.classwideId : TDecl → Option Nat
  | .decl _ cw _ _ => cw
  | .subtypeDecl _ _ => none

/-- The source's `BaseTypeDecl.canonical_type`: the declaration itself, except that
a subtype canonicalizes to its designated type's canonical type. -/
def TDecl.canonicalType : TDecl → TDecl
  | .decl n cw b a => .decl n cw b a
  | .subtypeDecl _ d => d.canonicalType

/-- The source's `base_type`: null by default, the parent type for derived type
declarations. -/
def TDecl.baseType : TDecl → Option TDecl
  | .decl _ _ b _ => b
  | .subtypeDecl _ _ => none

/-- The source's `accessed_type`: null by default, the designated type for access
type declarations; `SubtypeDecl.accessed_type` delegates to its
canonical type (which is always a full declaration). -/
def TDecl.accessedType (t : TDecl) : Option TDecl :=
  match t.canonicalType with
  | .decl _ _ _ a => a
  | .subtypeDecl _ _ => none

/-- The source's `BaseTypeDecl.is_derived_type`: entity equality, or equality of the
(non-null) classwide types, or derivation through the base type (null
propagating to false). -/
def isDerivedType : TDecl → TDecl → Bool
  | .decl n cw b a, other =>
    TDecl.beq (.decl n cw b a) other ||
    (match cw, other.classwideId with
     | some c1, some c2 => c1 == c2
     | _, _ => false) ||
    (match b with
     | some bt => isDerivedType bt other
     | none => false)
  | .subtypeDecl n d, other =>
    TDecl.beq (.subtypeDecl n d) other

/-- The source's `BaseTypeDecl.matching_prefix_type`: for a dotted expression `A.B`
where `containerType` contains `B` and `t` is a candidate type for `A`,
the canonical type of `t` derives from the canonical container type,
directly or through an access type. -/
def matchingPrefixType (t containerType : TDecl) : Bool :=
  let contType := containerType.canonicalType
  isDerivedType t.canonicalType contType ||
    (match t.canonicalType.accessedType with
     | some acc => isDerivedType acc contType
     | none => false)

/-! ## Theorems -/

theorem orBranches_logicAny (l : List Equation)
    (h : ∀ e ∈ l, orBranches e = [e]) : orBranches (logicAny l) = l := by
  induction l with
  | nil => rfl
  | cons e es ih =>
    cases es with
    | nil => exact h e (by simp)
    | cons f fs =>
      simp only [logicAny, orBranches]
      rw [h e (by simp), ih (fun x hx => h x (by simp [hx]))]
      rfl

theorem conjunctsOf_logicAll (l : List Equation) :
    conjunctsOf (logicAll l) = l.flatMap conjunctsOf := by
  induction l with
  | nil => rfl
  | cons e es ih =>
    cases es with
    | nil => simp [logicAll]
    | cons f fs =>
      simp only [logicAll, conjunctsOf, List.flatMap_cons]
      rw [ih]
      rfl

/-- C1: for every binary-operator expression node, the equation built
for it is (after the operands' sub-equations) a disjunction with one
branch per visible operator-subprogram overload plus the one built-in
fallback branch; each overload branch binds the left operand's type
variable to the overload's first formal type, the right operand's type
variable to the second formal type, the node's (result) type variable
to the overload's return type, and the operator's reference variable to
that overload. -/
theorem binop_equation_is_overload_disjunction (b : BinOpE)
    (subps : List SubpOverload) (leftSub rightSub : Equation) :
    ∃ d : Equation,
      binOpXrefEquation b subps leftSub rightSub (binOpNoOverloadEquation b)
        = .and (.and leftSub rightSub) d ∧
      orBranches d =
        subps.map (fun subp =>
          .and (.and (.and
            (.bindV (.typeVar b.leftId)
              (((unpackedFormalParams subp.paramSpecs).get? 0).bind
                (fun f => f.spec.typeCanonicalId)))
            (.bindV (.typeVar b.rightId)
              (((unpackedFormalParams subp.paramSpecs).get? 1).bind
                (fun f => f.spec.typeCanonicalId))))
            (.bindV (.typeVar b.selfId) subp.returnTypeId))
            (.bindV (.refVar b.opId) (some subp.subpId)))
          ++ [binOpNoOverloadEquation b] := by
  refine ⟨.or (logicAny (subps.map (binOpOverloadBranch b)))
      (binOpNoOverloadEquation b), rfl, ?_⟩
  have hb : ∀ e ∈ subps.map (binOpOverloadBranch b), orBranches e = [e] := by
    intro e he
    obtain ⟨s, _, rfl⟩ := List.mem_map.1 he
    rfl
  show orBranches (logicAny (subps.map (binOpOverloadBranch b)))
      ++ orBranches (binOpNoOverloadEquation b) = _
  rw [orBranches_logicAny _ hb]
  rfl

/-- C8: for every subprogram specification, the minimum number of
parameters (mandatory, defaultless formals) is at most the maximum
number of parameters (all unpacked formals). -/
theorem nb_min_params_le_nb_max_params (specs : List BaseFormalParamDeclE) :
    nbMinParams specs ≤ nbMaxParams specs :=
  List.length_filter_le _ _

/-- C10: `Name.matches` is symmetric, and it holds exactly when both
nodes are `Identifier`s with the same symbol or both are
`StringLiteral`s with the same symbol (every other combination of node
kinds yields false). -/
theorem name_matches_symmetric (n1 n2 : NameE) :
    nameMatches n1 n2 = nameMatches n2 n1 ∧
    (nameMatches n1 n2 = true ↔
      (∃ i1 i2 s, n1 = .ident i1 s ∧ n2 = .ident i2 s) ∨
      (∃ i1 i2 s, n1 = .strLit i1 s ∧ n2 = .strLit i2 s)) := by
  cases n1 <;> cases n2 <;>
    simp [nameMatches, eq_comm (α := String)]

/-- C2 (amended): whenever `is_matching_param_list` accepts an
actual-parameter list for a candidate's formals, the number of actual
associations is at most the total number of formals (reduced by one for
dot-notation candidates), each actual is matched to exactly one formal
— the formal at its (dot-notation-shifted) index for positional
actuals, the first name-matching formal for named actuals — and the
count of actuals matched to mandatory formals equals the count of
mandatory formals (reduced by one for dot-notation candidates). -/
theorem is_matching_param_list_only_if (holder : List BaseFormalParamDeclE)
    (params : List ParamAssocE) (isDottableSubp : Bool)
    (h : isMatchingParamList holder params isDottableSubp = true) :
    ((params.length : Int) ≤
      (if isDottableSubp then (nbMaxParams holder : Int) - 1
       else (nbMaxParams holder : Int))) ∧
    (∀ i a, (unpackedParams params).get? i = some a →
      ∃ f : SingleFormal,
        (matchParamList holder params isDottableSubp).get? i
          = some (some ⟨f, a⟩) ∧
        (a.name = none →
          (unpackedFormalParams holder).get?
            (if isDottableSubp then i + 1 else i) = some f) ∧
        (∀ nm, a.name = some nm →
          (unpackedFormalParams holder).find?
            (fun p => nameMatches p.name nm) = some f)) ∧
    ((((matchParamList holder params isDottableSubp).filter (fun m =>
        match m with
        | some pm => pm.formal.spec.isMandatory
        | none => false)).length : Int) =
      (if isDottableSubp then (nbMinParams holder : Int) - 1
       else (nbMinParams holder : Int))) := by
  unfold isMatchingParamList at h
  simp only [Bool.and_eq_true, decide_eq_true_eq, List.all_eq_true] at h
  obtain ⟨⟨h1, h2⟩, h3⟩ := h
  refine ⟨h1, ?_, h3⟩
  intro i a ha
  cases hname : a.name with
  | none =>
    have hmi : (matchParamList holder params isDottableSubp).get? i =
        some (((unpackedFormalParams holder).get?
          (if isDottableSubp then i + 1 else i)).map
            (fun sp => (⟨sp, a⟩ : ParamMatch))) := by
      unfold matchParamList
      rw [List.get?_map, List.get?_enum, ha]
      simp only [Option.map_some']
      rw [hname]
    have hsome := h2 _ (List.get?_mem hmi)
    obtain ⟨f, hf⟩ : ∃ f, (unpackedFormalParams holder).get?
        (if isDottableSubp then i + 1 else i) = some f :=
      Option.isSome_iff_exists.1 (by simpa using hsome)
    refine ⟨f, ?_, fun _ => hf, fun nm hnm => ?_⟩
    · rw [hmi, hf]
      rfl
    · cases hnm
  | some nm =>
    have hmi : (matchParamList holder params isDottableSubp).get? i =
        some (((unpackedFormalParams holder).find?
          (fun p => nameMatches p.name nm)).map
            (fun sp => (⟨sp, a⟩ : ParamMatch))) := by
      unfold matchParamList
      rw [List.get?_map, List.get?_enum, ha]
      simp only [Option.map_some']
      rw [hname]
    have hsome := h2 _ (List.get?_mem hmi)
    obtain ⟨f, hf⟩ : ∃ f, (unpackedFormalParams holder).find?
        (fun p => nameMatches p.name nm) = some f :=
      Option.isSome_iff_exists.1 (by simpa using hsome)
    refine ⟨f, ?_, fun hn => ?_, fun nm' hnm' => ?_⟩
    · rw [hmi, hf]
      rfl
    · cases hn
    · cases hnm'
      exact hf

/-- C2, counterexample to the claim as stated: with two mandatory
formals `A` and `B` and the two named actuals `(A => ..., A => ...)`,
`is_matching_param_list` accepts the list although the mandatory formal
`B` is matched by no actual (the two matches on `A` make the
mandatory-match count reach the mandatory-formal count). -/
theorem is_matching_param_list_unmatched_mandatory :
    isMatchingParamList twoMandatoryFormals duplicateDesignatorActuals false
      = true ∧
    (⟨.ident 2 "B", ⟨[.ident 2 "B"], 11, false, some 101, some 101⟩⟩ :
        SingleFormal) ∈ unpackedFormalParams twoMandatoryFormals ∧
    BaseFormalParamDeclE.isMandatory
      ⟨[.ident 2 "B"], 11, false, some 101, some 101⟩ = true ∧
    (matchParamList twoMandatoryFormals duplicateDesignatorActuals
        false).all
      (fun m =>
        match m with
        | some pm => decide (pm.formal.spec.specId ≠ 11)
        | none => true) = true := by
  decide

/-- C2, witness: a call with one positional actual against a mandatory
formal plus an unmatched optional formal is accepted, and the amended
necessary conditions hold for it. -/
theorem is_matching_param_list_only_if_witness :
    isMatchingParamList mandatoryPlusOptionalFormals onePositionalActual
      false = true ∧
    ((onePositionalActual.length : Int) ≤
      (if false then (nbMaxParams mandatoryPlusOptionalFormals : Int) - 1
       else (nbMaxParams mandatoryPlusOptionalFormals : Int))) :=
  ⟨by decide,
    (is_matching_param_list_only_if mandatoryPlusOptionalFormals
      onePositionalActual false (by decide)).1⟩

/-- C3 (amended): the classes whose nodes report themselves as
resolution entry points (`xref_entry_point` true) are exactly the
statements, the object declarations — initialized or not — and the
(full) type declarations, i.e. the subclasses of `Stmt`, `ObjectDecl`
and `TypeDecl`. -/
theorem xref_entry_point_exactly_stmt_objdecl_typedecl (c : ClassName) :
    xrefEntryPoint c =
      (inheritsFrom c .Stmt || inheritsFrom c .ObjectDecl ||
       inheritsFrom c .TypeDecl) := by
  cases c <;> rfl

/-- C3, counterexample to the claim as stated: an `ObjectDecl` without
a default expression (an uninitialized object declaration) still
reports `xref_entry_point` true, while it is neither a statement, nor
an initialized object declaration, nor a type declaration. -/
theorem xref_entry_point_object_decl_without_default :
    objectDeclXrefEntryPoint ⟨false⟩ = true ∧
    ObjectDeclFields.isInitialized ⟨false⟩ = false ∧
    xrefEntryPoint .ObjectDecl = true ∧
    inheritsFrom .ObjectDecl .Stmt = false ∧
    inheritsFrom .ObjectDecl .TypeDecl = false := by
  decide

theorem applyDelta_nil (s : Bindings) : applyDelta [] s = s := by
  funext v
  rfl

theorem applyDelta_append (d1 d2 : List (LVar × Option Nat))
    (s : Bindings) :
    applyDelta (d2 ++ d1) s = applyDelta d2 (applyDelta d1 s) := by
  funext v
  unfold applyDelta
  rw [List.find?_append]
  cases h2 : d2.find? (fun p => decide (p.1 = v)) with
  | some p => simp
  | none => simp

theorem applyDelta_idem (d : List (LVar × Option Nat)) (s : Bindings) :
    applyDelta d (applyDelta d s) = applyDelta d s := by
  funext v
  unfold applyDelta
  cases h : d.find? (fun p => decide (p.1 = v)) with
  | some p => rfl
  | none => rfl

mutual
theorem resolveNamesInternal_pure
    (solve : Equation → Option (List (LVar × Nat))) (t : NodeTree)
    (initial : Bool) :
    ∃ b d, ∀ s,
      resolveNamesInternal solve t initial s = (b, applyDelta d s) :=
  match t with
  | .node nid stop e children =>
    match resolveNamesChildren_pure solve children with
    | ⟨cb, cd, hc⟩ =>
      ⟨(if initial || stop then solveDelta solve e else (true, [])).1 && cb,
       cd ++ (if initial || stop then solveDelta solve e else (true, [])).2,
       fun s => by
        show resolveNamesInternal solve (.node nid stop e children)
          initial s = _
        unfold resolveNamesInternal
        simp only []
        rw [hc, applyDelta_append]⟩

theorem resolveNamesChildren_pure
    (solve : Equation → Option (List (LVar × Nat))) (f : NodeForest) :
    ∃ b d, ∀ s,
      resolveNamesChildren solve f s = (b, applyDelta d s) :=
  match f with
  | .nil => ⟨true, [], fun s => by
      unfold resolveNamesChildren
      rw [applyDelta_nil]⟩
  | .cons t ts =>
    match resolveNamesInternal_pure solve t false,
        resolveNamesChildren_pure solve ts with
    | ⟨hb, hd, hh⟩, ⟨tb, td, ht⟩ =>
      ⟨hb && tb, td ++ hd, fun s => by
        unfold resolveNamesChildren
        simp only []
        rw [hh s, ht, applyDelta_append]⟩
end

/-- C4: `resolve_names` is deterministic and idempotent — for every
tree and any pure solver, the boolean result does not depend on the
incoming bindings (each solve resets and rewrites its own variables),
and re-running `resolve_names` on the unmodified tree from the bindings
the first run produced yields the same boolean result and leaves the
bindings identical. -/
theorem resolve_names_deterministic_idempotent
    (solve : Equation → Option (List (LVar × Nat))) (t : NodeTree)
    (s s' : Bindings) :
    (resolveNames solve t s).1 = (resolveNames solve t s').1 ∧
    resolveNames solve t (resolveNames solve t s).2
      = resolveNames solve t s := by
  obtain ⟨b, d, h⟩ := resolveNamesInternal_pure solve t true
  unfold resolveNames
  rw [h s, h s']
  refine ⟨rfl, ?_⟩
  show resolveNamesInternal solve t true (applyDelta d s) = _
  rw [h (applyDelta d s), applyDelta_idem]

/-- C5: an aggregate stops the enclosing resolution
(`xref_stop_resolution` true, so its `sub_equation` is `LogicTrue` and
it is solved in a later step, after its own type has been bound
top-down); its equation, built from the bound type value, is either the
record-shaped conjunction binding each matched association's expression
type to the matched component's designated type (associations matched
like call arguments against the target type's component list) or, when
the target type is an array type, the per-element conjunction binding
every association's expression type to the array's component type. -/
theorem aggregate_equation_shape (td : AggregateTypeVal)
    (assocs : List ParamAssocE) (subEq : Nat → Equation) :
    aggregateXrefStopResolution = true ∧
    (∀ e, subEquation aggregateXrefStopResolution e = .ltrue) ∧
    conjunctsOf (aggregateXrefEquation td assocs subEq) =
      (match td.arrayDef with
       | none =>
         (matchParamList td.recordComps assocs false).flatMap (fun m =>
           match m with
           | some pm =>
             .bindV (.typeVar pm.actual.exprId)
                 pm.formal.spec.typeDesignatedId
               :: (conjunctsOf (subEq pm.actual.exprId)
                 ++ (match pm.actual.name with
                     | none => []
                     | some nm =>
                       [.bindV (.refVar nm.nid)
                          (some pm.formal.spec.specId)]))
           | none => [.err])
       | some atd =>
         assocs.flatMap (fun a =>
           conjunctsOf (subEq a.exprId)
             ++ [.bindV (.typeVar a.exprId) atd.compTypeId])) := by
  refine ⟨rfl, fun e => rfl, ?_⟩
  cases hat : td.arrayDef with
  | none =>
    unfold aggregateXrefEquation
    rw [hat, conjunctsOf_logicAll, List.flatMap_map]
    apply List.flatMap_congr
    intro m _
    match m with
    | some pm =>
      cases hnm : pm.actual.name <;>
        simp [aggregateRecordBranch, conjunctsOf, hnm]
    | none => rfl
  | some atd =>
    unfold aggregateXrefEquation
    rw [hat, conjunctsOf_logicAll, List.flatMap_map]
    rfl

/-- C6: looking up the same declaration through the defining
environments of two generic-package instantiations with distinct
instantiation environments yields entities with the same underlying
node but with different rebinding chains, hence unequal; entity
equality requires node, metadata and rebinding chain to all match. -/
theorem generic_instantiations_yield_distinct_entities
    (g : GenericPackageDeclE) (i1 i2 : GenericPackageInstantiationE)
    (s : String) (k : Nat) (e1 e2 : Entity)
    (hne : i1.instEnvId ≠ i2.instEnvId)
    (h1 : (definingEnvGet g i1 s).get? k = some e1)
    (h2 : (definingEnvGet g i2 s).get? k = some e2) :
    e1.node = e2.node ∧ e1 ≠ e2 ∧
    (∀ a b : Entity, a = b ↔
      a.node = b.node ∧ a.md = b.md ∧ a.rebindings = b.rebindings) := by
  unfold definingEnvGet rebindEnvGet at h1 h2
  rw [List.get?_map] at h1 h2
  obtain ⟨b1, hb1, he1⟩ := Option.map_eq_some'.1 h1
  obtain ⟨b2, hb2, he2⟩ := Option.map_eq_some'.1 h2
  rw [hb1] at hb2
  cases hb2
  subst he1
  subst he2
  refine ⟨rfl, fun hcontra => ?_, fun a b => ?_⟩
  · have := congrArg Entity.rebindings hcontra
    simp only [List.append_cancel_left_eq, List.cons.injEq,
      Rebinding.mk.injEq] at this
    exact hne this.1.2
  · cases a
    cases b
    simp [Entity.mk.injEq]

/-- C6, witness: a generic package with one exported declaration,
instantiated through environments 5 and 6, yields two entities over
node 42 that differ only in their rebinding chains. -/
theorem generic_instantiations_yield_distinct_entities_witness :
    ((⟨5⟩ : GenericPackageInstantiationE).instEnvId
        ≠ (⟨6⟩ : GenericPackageInstantiationE).instEnvId) ∧
    (definingEnvGet genElemDecl ⟨5⟩ "Elem").get? 0 = some entElem5 ∧
    (definingEnvGet genElemDecl ⟨6⟩ "Elem").get? 0 = some entElem6 ∧
    (entElem5.node = entElem6.node ∧ entElem5 ≠ entElem6 ∧
      (∀ a b : Entity, a = b ↔
        a.node = b.node ∧ a.md = b.md ∧ a.rebindings = b.rebindings)) :=
  ⟨by decide, by decide, by decide,
    generic_instantiations_yield_distinct_entities genElemDecl ⟨5⟩ ⟨6⟩
      "Elem" 0 entElem5 entElem6 (by decide) (by decide) (by decide)⟩

theorem addToEnv_entries (e : LexicalEnv) (sym : String) (ent : Entity) :
    (addToEnv e sym ent).entries = e.entries ++ [(sym, ent)] := by
  cases e
  rfl

theorem foldl_addToEnv_entries (adds : List (String × Entity))
    (e : LexicalEnv) :
    (adds.foldl (fun e p => addToEnv e p.1 p.2) e).entries
      = e.entries ++ adds := by
  induction adds generalizing e with
  | nil => simp
  | cons a as ih =>
    rw [List.foldl_cons, ih, addToEnv_entries]
    simp

theorem envGet_nonrec_eq_entries (e : LexicalEnv) (s : String) :
    envGet e s false
      = e.entries.filterMap (fun p => if p.1 = s then some p.2 else none) := by
  cases e
  rw [envGet.eq_def]
  rfl

theorem filterMap_if_eq_filter_map (adds : List (String × Entity))
    (s : String) :
    adds.filterMap (fun p => if p.1 = s then some p.2 else none)
      = (adds.filter (fun p => decide (p.1 = s))).map (fun p => p.2) := by
  induction adds with
  | nil => rfl
  | cons a as ih =>
    by_cases h : a.1 = s <;>
      simp [List.filterMap_cons, List.filter_cons, h, ih]

/-- C7: a non-recursive `get(env, s, recursive=false)` returns exactly
the entities added directly at the environment under `s`, in insertion
order, whatever the parent and referenced environments contain. -/
theorem env_get_nonrecursive (adds : List (String × Entity))
    (parent parent' : Option LexicalEnv) (refs refs' : List LexicalEnv)
    (s : String) :
    envGet (envOfAdds adds parent refs) s false
      = (adds.filter (fun p => decide (p.1 = s))).map (fun p => p.2) ∧
    envGet (envOfAdds adds parent refs) s false
      = envGet (envOfAdds adds parent' refs') s false := by
  have key : ∀ (p : Option LexicalEnv) (r : List LexicalEnv),
      envGet (envOfAdds adds p r) s false
        = (adds.filter (fun p => decide (p.1 = s))).map (fun p => p.2) := by
    intro p r
    rw [envGet_nonrec_eq_entries]
    unfold envOfAdds
    rw [foldl_addToEnv_entries]
    show ((LexicalEnv.mk [] p r).entries ++ adds).filterMap _ = _
    rw [filterMap_if_eq_filter_map]
    rfl
  exact ⟨key parent refs, (key parent refs).trans (key parent' refs').symm⟩

mutual
theorem tdecl_beq_refl : ∀ t : TDecl, TDecl.beq t t = true
  | .decl n c b a => by
    unfold TDecl.beq
    simp [tdecl_obeq_refl b, tdecl_obeq_refl a]
  | .subtypeDecl n d => by
    unfold TDecl.beq
    simp [tdecl_beq_refl d]

theorem tdecl_obeq_refl : ∀ o : Option TDecl, TDecl.obeq o o = true
  | none => rfl
  | some x => tdecl_beq_refl x
end

/-- C9: the type-derivation relation is reflexive — every type
declaration derives from itself — and consequently
`matching_prefix_type` accepts a prefix whose type is exactly the
suffix candidate's declaring container type. -/
theorem is_derived_type_reflexive (t : TDecl) :
    isDerivedType t t = true ∧ matchingPrefixType t t = true := by
  have h : ∀ u : TDecl, isDerivedType u u = true := by
    intro u
    cases u with
    | decl n c b a =>
      unfold isDerivedType
      simp [tdecl_beq_refl]
    | subtypeDecl n d =>
      unfold isDerivedType
      simp [tdecl_beq_refl]
  refine ⟨h t, ?_⟩
  unfold matchingPrefixType
  simp [h]

end Libadalang
